import Mathlib

/-!
# Verification of `prismatic.serialization`

A shallow embedding of `src/prismatic/serialization.py`: a bidirectional
mapping engine between JSON-like documents and attribute-holding model
objects.  Python values are embedded as inductive types, converter classes
as an inductive `Conv` with the two direction functions, fields and the
schema tree as inductives, and the mutating `deserialize` methods as
state-passing functions whose errors carry the model state at raise time
(a Python exception propagates leaving all mutations made so far in place).

Modelling conventions, stated once here:

* Python `int` is `Int`, Python `str` is `String`, Python `bool` is `Bool`.
* Python `float` is a rational number (`Rat`).  Every CPython float is a
  dyadic rational (denominator a power of two); `floatOfRat` below models
  the `float(...)` conversion: it is exact on dyadic rationals (where the
  real conversion is exact as long as the mantissa fits) and rounds other
  rationals to a nearby dyadic (round to 60 fractional bits stands in for
  IEEE round-to-nearest-double).  The development relies only on the two
  faithful properties: the conversion is the identity on dyadic values,
  and its result is always dyadic.
* Python `decimal.Decimal` is a rational number; `Decimal` equality in
  Python is value equality, which matches `Rat` equality.
  `decimal.Decimal.from_float` is exact, hence the identity here.
* Python objects in model position are `MValue.sub` with an
  insertion-ordered attribute list; `getattr`/`setattr` are association
  list lookup/update, and `getattr`/`setattr` on a non-object raise
  `AttributeError` just as in Python.
* `str(x)` on values whose CPython rendering depends on representation
  detail that the rational abstraction drops (non-integral floats and
  decimals, lists, objects) is given a fixed schematic rendering; no
  theorem below depends on those branches.
-/

namespace Prismatic

/-- A JSON document value (the host structured-data representation):
null, string, number (int or float kept apart as in Python), boolean,
array, or string-keyed object. -/
inductive JValue where
  | null : JValue
  | str : String → JValue
  | int : Int → JValue
  | float : Rat → JValue
  | bool : Bool → JValue
  | arr : List JValue → JValue
  | obj : List (String × JValue) → JValue

/-- A Python model-side value: `None`, scalars, `decimal.Decimal`,
`datetime.date` / `datetime.datetime` (by their components), lists, or an
attribute-holding object (`sub`, an insertion-ordered attribute list). -/
inductive MValue where
  | none : MValue
  | str : String → MValue
  | int : Int → MValue
  | float : Rat → MValue
  | bool : Bool → MValue
  | dec : Rat → MValue
  | date : Nat → Nat → Nat → MValue
  | datetime : Nat → Nat → Nat → Nat → Nat → Nat → Nat → MValue
  | list : List MValue → MValue
  | sub : List (String × MValue) → MValue

/-- The Python exceptions the module can raise: `SerializationError`
(with its message), `TypeError` (invalid schema node; non-iterable;
`strptime` on a non-string), `ValueError` (an uncaught numeric
conversion failure in `model_to_json`), and `AttributeError` (missing
attribute / attribute access on a non-object). -/
inductive PyError where
  | serialization : String → PyError
  | typeError : String → PyError
  | valueError : String → PyError
  | attributeError : String → PyError
deriving DecidableEq

/-- `getattr(model, attr)` on the attribute list of an object. -/
def getA : List (String × MValue) → String → Option MValue
  | [], _ => Option.none
  | (k, v) :: t, a => if k = a then some v else getA t a

/-- `setattr(model, attr, v)` on the attribute list: update the first
occurrence in place, or append a fresh attribute. -/
def setA : List (String × MValue) → String → MValue → List (String × MValue)
  | [], a, v => [(a, v)]
  | (k, w) :: t, a, v => if k = a then (a, v) :: t else (k, w) :: setA t a v

/-- `getattr` on an arbitrary model-position value: attribute access on
anything but an object raises `AttributeError`. -/
def pyGetAttr : MValue → String → Except PyError MValue
  | .sub l, a =>
    match getA l a with
    | some v => .ok v
    | Option.none => .error (.attributeError a)
  | _, a => .error (.attributeError a)

/-- `setattr` on an arbitrary model-position value. -/
def pySetAttr : MValue → String → MValue → Except PyError MValue
  | .sub l, a, v => .ok (.sub (setA l a v))
  | _, a, _ => .error (.attributeError a)

/-- Python truthiness (`bool(x)`) of a document value. -/
def jTruthy : JValue → Bool
  | .null => false
  | .str s => s != ""
  | .int n => n != 0
  | .float q => q != 0
  | .bool b => b
  | .arr xs => !xs.isEmpty
  | .obj kvs => !kvs.isEmpty

/-- Python truthiness (`bool(x)`) of a model value (objects, dates and
datetimes are always truthy). -/
def mTruthy : MValue → Bool
  | .none => false
  | .str s => s != ""
  | .int n => n != 0
  | .float q => q != 0
  | .bool b => b
  | .dec q => q != 0
  | .date _ _ _ => true
  | .datetime _ _ _ _ _ _ _ => true
  | .list xs => !xs.isEmpty
  | .sub _ => true

/-- Is a natural number a power of two?  (`n & (n-1) == 0` trick.) -/
def isPow2 (n : Nat) : Bool := n ≠ 0 && n &&& (n - 1) == 0

/-- The model of CPython `float(q)`: exact on dyadic rationals, rounds
any other rational to a nearby dyadic (see the module comment). -/
def floatOfRat (q : Rat) : Rat :=
  if isPow2 q.den then q else ((⌊q * 2 ^ 60 + 1 / 2⌋ : Int) : Rat) / (2 ^ 60 : Rat)

/-- Truncation toward zero, as Python `int(...)` on a numeric value. -/
def ratTrunc (q : Rat) : Int := if 0 ≤ q then q.floor else -(Rat.floor (-q))

/-! ## Decimal digit text: `%04d`/`%02d`/`%06d` formatting and `strptime`
digit scanning. -/

/-- The character for the last decimal digit of `n`. -/
def digitChar (n : Nat) : Char := Char.ofNat (48 + n % 10)

/-- `%02d` rendering of `n` (exact for `n ≤ 99`, the range the date and
time fields guarantee). -/
def pad2 (n : Nat) : List Char := [digitChar (n / 10), digitChar n]

/-- `%04d` rendering of `n` (exact for `n ≤ 9999`; Python years are
`1..9999`). -/
def pad4 (n : Nat) : List Char :=
  [digitChar (n / 1000), digitChar (n / 100), digitChar (n / 10), digitChar n]

/-- `%06d` rendering of `n` (exact for `n ≤ 999999`; microseconds). -/
def pad6 (n : Nat) : List Char :=
  [digitChar (n / 100000), digitChar (n / 10000), digitChar (n / 1000),
   digitChar (n / 100), digitChar (n / 10), digitChar n]

/-- Numeric value of one digit character. -/
def digitVal (c : Char) : Nat := c.toNat - 48

/-- Numeric value of a digit run, most significant first. -/
def digitsVal (cs : List Char) : Nat := cs.foldl (fun a c => 10 * a + digitVal c) 0

/-- Split a maximal leading digit run from the rest, the scanning step of
the `strptime` numeric directives. -/
def spanDigits (cs : List Char) : List Char × List Char :=
  (cs.takeWhile Char.isDigit, cs.dropWhile Char.isDigit)

/-! ## Dates and datetimes (`datetime.date` / `datetime.datetime`) -/

/-- The Gregorian leap-year rule used by `datetime`. -/
def isLeap (y : Nat) : Bool := y % 4 == 0 && (y % 100 != 0 || y % 400 == 0)

/-- Days in a month, as validated by the `date`/`datetime` constructors. -/
def daysInMonth (y m : Nat) : Nat :=
  if m == 2 then (if isLeap y then 29 else 28)
  else if m == 4 || m == 6 || m == 9 || m == 11 then 30
  else 31

/-- The `datetime.date(y, m, d)` constructor validity check
(`MINYEAR = 1`, `MAXYEAR = 9999`). -/
def validDate (y m d : Nat) : Bool :=
  1 ≤ y && y ≤ 9999 && 1 ≤ m && m ≤ 12 && 1 ≤ d && d ≤ daysInMonth y m

/-- The extra `datetime.datetime` constructor checks on the time part. -/
def validTime (h mi s us : Nat) : Bool :=
  h ≤ 23 && mi ≤ 59 && s ≤ 59 && us ≤ 999999

/-- `date.isoformat()`: `YYYY-MM-DD`. -/
def isoDate (y m d : Nat) : List Char := pad4 y ++ '-' :: pad2 m ++ '-' :: pad2 d

/-- `datetime.isoformat(sep)`: `YYYY-MM-DD{sep}HH:MM:SS`, with the
`.ffffff` microsecond part present exactly when the microsecond is
non-zero. -/
def isoDateTimeSep (sep : Char) (y mo d h mi s us : Nat) : List Char :=
  isoDate y mo d ++ sep :: pad2 h ++ ':' :: pad2 mi ++ ':' :: pad2 s ++
    (if us == 0 then [] else '.' :: pad6 us)

/-- `datetime.isoformat()` with the default `T` separator, the form
serialized by the `DateTime` converter. -/
def isoDateTime (y mo d h mi s us : Nat) : List Char := isoDateTimeSep 'T' y mo d h mi s us

/-- `strptime(s, "%Y-%m-%d")` up to constructor validation: `%Y` is
exactly four digits, `%m` and `%d` one or two, the `-` separators are
literal, and the whole input must be consumed.  Out-of-range components
are rejected by `validDate` in the converter, matching the combined
regex/constructor rejection in CPython (both surface as `ValueError`). -/
def parseDateChars (cs : List Char) : Option (Nat × Nat × Nat) :=
  let (ys, r1) := spanDigits cs
  match r1 with
  | '-' :: r2 =>
    let (ms, r3) := spanDigits r2
    match r3 with
    | '-' :: r4 =>
      let (ds, r5) := spanDigits r4
      if ys.length == 4 && (ms.length == 1 || ms.length == 2) &&
          (ds.length == 1 || ds.length == 2) && r5.isEmpty then
        some (digitsVal ys, digitsVal ms, digitsVal ds)
      else Option.none
    | _ => Option.none
  | _ => Option.none

/-- `strptime(s, "%Y-%m-%dT%H:%M:%S.%f")` (with `withFrac = true`) or
`strptime(s, "%Y-%m-%dT%H:%M:%S")` (with `withFrac = false`), up to
constructor validation.  `%H`, `%M`, `%S` are one or two digits; `%f` is
one to six digits, right-padded with zeros to microseconds. -/
def parseDateTimeChars (cs : List Char) (withFrac : Bool) :
    Option (Nat × Nat × Nat × Nat × Nat × Nat × Nat) :=
  let (ys, r1) := spanDigits cs
  match r1 with
  | '-' :: r2 =>
    let (mos, r3) := spanDigits r2
    match r3 with
    | '-' :: r4 =>
      let (ds, r5) := spanDigits r4
      match r5 with
      | 'T' :: r6 =>
        let (hs, r7) := spanDigits r6
        match r7 with
        | ':' :: r8 =>
          let (mis, r9) := spanDigits r8
          match r9 with
          | ':' :: r10 =>
            let (ss, r11) := spanDigits r10
            if ys.length == 4 && (mos.length == 1 || mos.length == 2) &&
                (ds.length == 1 || ds.length == 2) && (hs.length == 1 || hs.length == 2) &&
                (mis.length == 1 || mis.length == 2) && (ss.length == 1 || ss.length == 2) then
              if withFrac then
                match r11 with
                | '.' :: r12 =>
                  let (fs, r13) := spanDigits r12
                  if 1 ≤ fs.length && fs.length ≤ 6 && r13.isEmpty then
                    some (digitsVal ys, digitsVal mos, digitsVal ds, digitsVal hs,
                      digitsVal mis, digitsVal ss, digitsVal fs * 10 ^ (6 - fs.length))
                  else Option.none
                | _ => Option.none
              else
                if r11.isEmpty then
                  some (digitsVal ys, digitsVal mos, digitsVal ds, digitsVal hs,
                    digitsVal mis, digitsVal ss, 0)
                else Option.none
            else Option.none
          | _ => Option.none
        | _ => Option.none
      | _ => Option.none
    | _ => Option.none
  | _ => Option.none

/-! ## `str(x)` and numeric string conversion -/

/-- Schematic rendering of a rational standing in for CPython's rendering
of a `float`/`Decimal`; exact for integral values, and a fixed
`num/den` form otherwise (the real rendering depends on representation
detail the rational abstraction drops).  No theorem depends on the
non-integral branch. -/
def ratRepr (q : Rat) : String :=
  if q.den == 1 then toString q.num else toString q.num ++ "/" ++ toString q.den

/-- `str(x)` on a model value.  Exact for `None`, strings, ints, bools,
dates and datetimes (`str` of a `datetime` is `isoformat(' ')`);
schematic for the other variants (see `ratRepr`), none of which any
theorem depends on. -/
def pyStrM : MValue → String
  | .none => "None"
  | .str s => s
  | .int n => toString n
  | .float q => ratRepr q
  | .bool b => if b then "True" else "False"
  | .dec q => ratRepr q
  | .date y m d => String.mk (isoDate y m d)
  | .datetime y mo d h mi s us => String.mk (isoDateTimeSep ' ' y mo d h mi s us)
  | .list _ => "[...]"
  | .sub _ => "<object>"

/-- `str(x)` on a document value, same conventions as `pyStrM`. -/
def pyStrJ : JValue → String
  | .null => "None"
  | .str s => s
  | .int n => toString n
  | .float q => ratRepr q
  | .bool b => if b then "True" else "False"
  | .arr _ => "[...]"
  | .obj _ => "<dict>"

/-- Strip leading and trailing whitespace (Python `str.strip()`;
`Char.isWhitespace` stands in for Python's whitespace class). -/
def pyStrip (cs : List Char) : List Char :=
  ((cs.dropWhile Char.isWhitespace).reverse.dropWhile Char.isWhitespace).reverse

/-- `str.strip()` at the string level. -/
def pyTrim (s : String) : String := String.mk (pyStrip s.data)

/-- A non-empty all-digit run, read as a number. -/
def allDigitsVal : List Char → Option Nat
  | [] => Option.none
  | cs => if cs.all Char.isDigit then some (digitsVal cs) else Option.none

/-- Python `int(s)` on a string: optional surrounding whitespace, an
optional sign, then decimal digits (digit-group underscores are not
modelled). -/
def pyIntOfStr (s : String) : Option Int :=
  match pyStrip s.data with
  | '-' :: ds => (allDigitsVal ds).map (fun n => -(n : Int))
  | '+' :: ds => (allDigitsVal ds).map (fun n => (n : Int))
  | ds => (allDigitsVal ds).map (fun n => (n : Int))

/-- Python `float(s)` on a string, restricted to plain decimal notation
with an optional sign and fraction (exponent and `inf`/`nan` forms are
not modelled; no theorem depends on this branch). -/
def pyFloatOfStr (s : String) : Option Rat :=
  let core : List Char → Option Rat := fun cs =>
    match cs.span (fun c => c != '.') with
    | (intPart, []) => (allDigitsVal intPart).map (fun n => (n : Rat))
    | (intPart, '.' :: fracPart) =>
      match allDigitsVal intPart, allDigitsVal fracPart with
      | some n, some f => some ((n : Rat) + (f : Rat) / ((10 : Rat) ^ fracPart.length))
      | _, _ => Option.none
    | _ => Option.none
  match pyStrip s.data with
  | '-' :: cs => (core cs).map (fun q => -q)
  | '+' :: cs => core cs
  | cs => core cs

/-! ## Converters

`Conv` covers the concrete `Converter` subclasses of the module: each
value is one converter instance with its constructor configuration
(`String(allow_empty=...)`, `Array(inner)`).  `model_to_json` and
`json_to_model` are the two direction methods; a `.error` result is the
exception the Python method raises. -/

inductive Conv where
  | string (allow_empty : Bool)
  | boolean
  | integer
  | decimal
  | date
  | datetime
  | array (inner : Conv)

/-- Fixed message texts for the wrapped conversion failures (the Python
code formats the caught exception into `SerializationError(e)`; the
exact wrapped text is immaterial, the error kind is not). -/
def intOfStrErr : String := "invalid literal for int() with base 10"

def intTypeErr : String := "int() argument must be a string or a number"

def decTypeErr : String := "argument must be int or float"

def dateFmtErr : String := "time data does not match format"

def strptimeTypeErr : String := "strptime() argument 0 must be str"

def notIterableErr : String := "object is not iterable"

mutual

/-- `Converter.model_to_json` for each converter class.  `String` is
`str(...)`; `Boolean` is `bool(...)`; `Integer` is `int(...)` (uncaught
`ValueError`/`TypeError` propagate); `Decimal` is `float(...)`;
`Date`/`DateTime` call `.isoformat()` (an `AttributeError` on values
without it); `Array` converts element-wise (a string model value
iterates its characters; non-iterables raise `TypeError`). -/
def model_to_json : Conv → MValue → Except PyError JValue
  | .string _, v => .ok (.str (pyStrM v))
  | .boolean, v => .ok (.bool (mTruthy v))
  | .integer, v =>
    match v with
    | .int n => .ok (.int n)
    | .bool b => .ok (.int (if b then 1 else 0))
    | .float q => .ok (.int (ratTrunc q))
    | .dec q => .ok (.int (ratTrunc q))
    | .str s =>
      match pyIntOfStr s with
      | some n => .ok (.int n)
      | Option.none => .error (.valueError intOfStrErr)
    | _ => .error (.typeError intTypeErr)
  | .decimal, v =>
    match v with
    | .dec q => .ok (.float (floatOfRat q))
    | .float q => .ok (.float q)
    | .int n => .ok (.float (n : Rat))
    | .bool b => .ok (.float (if b then 1 else 0))
    | .str s =>
      match pyFloatOfStr s with
      | some q => .ok (.float q)
      | Option.none => .error (.valueError "could not convert string to float")
    | _ => .error (.typeError "float() argument must be a string or a number")
  | .date, v =>
    match v with
    | .date y m d => .ok (.str (String.mk (isoDate y m d)))
    | .datetime y mo d h mi s us => .ok (.str (String.mk (isoDateTime y mo d h mi s us)))
    | _ => .error (.attributeError "isoformat")
  | .datetime, v =>
    match v with
    | .date y m d => .ok (.str (String.mk (isoDate y m d)))
    | .datetime y mo d h mi s us => .ok (.str (String.mk (isoDateTime y mo d h mi s us)))
    | _ => .error (.attributeError "isoformat")
  | .array inner, v =>
    match v with
    | .list xs =>
      match mtjList inner xs with
      | .ok vs => .ok (.arr vs)
      | .error e => .error e
    | .str s =>
      match mtjList inner (s.data.map (fun c => MValue.str (String.mk [c]))) with
      | .ok vs => .ok (.arr vs)
      | .error e => .error e
    | _ => .error (.typeError notIterableErr)

/-- The list comprehension of `Array.model_to_json`, element by element. -/
def mtjList : Conv → List MValue → Except PyError (List JValue)
  | _, [] => .ok []
  | c, x :: xs =>
    match model_to_json c x with
    | .error e => .error e
    | .ok v =>
      match mtjList c xs with
      | .error e => .error e
      | .ok vs => .ok (v :: vs)

end

mutual

/-- `Converter.json_to_model` for each converter class, with the failure
modes of the source: `String` strips and rejects an empty result unless
`allow_empty`; `Boolean` is `bool(...)`; `Integer` is `int(...)` with
`ValueError`/`TypeError` wrapped into `SerializationError`; `Decimal`
is `Decimal.from_float(...)` (exact; `TypeError` wrapped) — `bool` is
accepted as an `int` subclass; `Date`/`DateTime` are `strptime` with
the fixed formats (a `ValueError` is wrapped, `strptime` on a non-string
raises an unwrapped `TypeError`; `DateTime` retries without
microseconds); `Array` rejects strings outright, converts element-wise,
and wraps a `TypeError` raised by iteration or by an element conversion
(dict input iterates its keys). -/
def json_to_model : Conv → JValue → Except PyError MValue
  | .string ae, jv =>
    let model_value := pyTrim (pyStrJ jv)
    if ae || model_value.length > 0 then .ok (.str model_value)
    else .error (.serialization "Empty string not allowed")
  | .boolean, jv => .ok (.bool (jTruthy jv))
  | .integer, jv =>
    match jv with
    | .int n => .ok (.int n)
    | .bool b => .ok (.int (if b then 1 else 0))
    | .float q => .ok (.int (ratTrunc q))
    | .str s =>
      match pyIntOfStr s with
      | some n => .ok (.int n)
      | Option.none => .error (.serialization intOfStrErr)
    | _ => .error (.serialization intTypeErr)
  | .decimal, jv =>
    match jv with
    | .float q => .ok (.dec q)
    | .int n => .ok (.dec (n : Rat))
    | .bool b => .ok (.dec (if b then 1 else 0))
    | _ => .error (.serialization decTypeErr)
  | .date, jv =>
    match jv with
    | .str s =>
      match parseDateChars s.data with
      | some (y, m, d) => if validDate y m d then .ok (.date y m d) else .error (.serialization dateFmtErr)
      | Option.none => .error (.serialization dateFmtErr)
    | _ => .error (.typeError strptimeTypeErr)
  | .datetime, jv =>
    match jv with
    | .str s =>
      match parseDateTimeChars s.data true with
      | some (y, mo, d, h, mi, sec, us) =>
        if validDate y mo d && validTime h mi sec us then .ok (.datetime y mo d h mi sec us)
        else .error (.serialization dateFmtErr)
      | Option.none =>
        match parseDateTimeChars s.data false with
        | some (y, mo, d, h, mi, sec, us) =>
          if validDate y mo d && validTime h mi sec us then .ok (.datetime y mo d h mi sec us)
          else .error (.serialization dateFmtErr)
        | Option.none => .error (.serialization dateFmtErr)
    | _ => .error (.typeError strptimeTypeErr)
  | .array inner, jv =>
    match jv with
    | .str _ => .error (.serialization "String cannot be converted to an array")
    | .arr xs =>
      match jtmList inner xs with
      | .ok vs => .ok (.list vs)
      | .error (.typeError m) => .error (.serialization m)
      | .error e => .error e
    | .obj kvs =>
      match jtmList inner (kvs.map (fun p => JValue.str p.1)) with
      | .ok vs => .ok (.list vs)
      | .error (.typeError m) => .error (.serialization m)
      | .error e => .error e
    | _ => .error (.serialization notIterableErr)

/-- The list comprehension of `Array.json_to_model`, element by element. -/
def jtmList : Conv → List JValue → Except PyError (List MValue)
  | _, [] => .ok []
  | c, x :: xs =>
    match json_to_model c x with
    | .error e => .error e
    | .ok v =>
      match jtmList c xs with
      | .error e => .error e
      | .ok vs => .ok (v :: vs)

end

/-! ## Python `==` on document values

The read-only/create-only check compares `json_value != old_json_value`
with Python equality: numeric values compare across `int`/`float`/`bool`,
lists compare element-wise, dicts compare as unordered key-value maps. -/

/-- The numeric view of a document value (`bool` is an `int` subclass). -/
def jNum : JValue → Option Rat
  | .int n => some (n : Rat)
  | .float q => some q
  | .bool b => some (if b then 1 else 0)
  | _ => Option.none

mutual

/-- Python `==` on document values. -/
def jEq : JValue → JValue → Bool
  | .null, .null => true
  | .str a, .str b => a == b
  | .arr a, .arr b => jEqList a b
  | .obj a, .obj b => a.length == b.length && jEqObjSub a b
  | x, y =>
    match jNum x, jNum y with
    | some p, some q => p == q
    | _, _ => false

/-- Python `==` on lists, element-wise. -/
def jEqList : List JValue → List JValue → Bool
  | [], [] => true
  | x :: xs, y :: ys => jEq x y && jEqList xs ys
  | _, _ => false

/-- Every entry of the first dict is present in the second with an equal
value (with equal lengths and unique keys this is dict equality). -/
def jEqObjSub : List (String × JValue) → List (String × JValue) → Bool
  | [], _ => true
  | (k, v) :: t, b => jLookupEq b k v && jEqObjSub t b

/-- The second dict has key `key` with a value equal to `v`. -/
def jLookupEq : List (String × JValue) → String → JValue → Bool
  | [], _, _ => false
  | (k, w) :: t, key, v => if k == key then jEq v w else jLookupEq t key v

end

/-! ## Fields and the schema tree -/

/-- The `Field` descriptor: a model attribute name, a converter, and the
three policy flags (`Field.__init__`). -/
structure Field where
  model_attr : String
  converter : Conv
  readonly : Bool
  createonly : Bool
  nullable : Bool

/-- A schema node: the values a `Serializer` mapping can hold.  `field`,
`mapField` (a `MapField` with its wrapped sub-schema mapping) and
`callable` are the `AbstractSerializer` leaves; `group` is a plain dict
branch (recursed into with the same model); `invalid` is any other
value, the malformed-schema case the source rejects with `TypeError`. -/
inductive SNode where
  | field : Field → SNode
  | mapField : String → List (String × SNode) → Bool → SNode
  | callable : (MValue → Except PyError JValue) → SNode
  | group : List (String × SNode) → SNode
  | invalid : SNode

/-- The result of a mutating `deserialize` call: either the updated
model, or the raised exception together with the model as mutated up to
the raise point (a Python exception leaves prior mutations in place). -/
abbrev DRes := Except (PyError × MValue) MValue

/-- `"Cannot change read-only attribute '%s'"`. -/
def readonlyMsg (attr : String) : String :=
  "Cannot change read-only attribute '" ++ attr ++ "'"

/-- `"Cannot assign null to non-nullable attribute '%s'"`. -/
def nonNullableMsg (attr : String) : String :=
  "Cannot assign null to non-nullable attribute '" ++ attr ++ "'"

/-- `"Cannot modify a null nested field '%s'"`. -/
def nullNestedMsg (attr : String) : String :=
  "Cannot modify a null nested field '" ++ attr ++ "'"

/-- `"Properties '%s' are not valid for this resource"` with the unknown
keys joined by `", "` (CPython iterates the key set in unspecified order;
this embedding determinizes it to document order — the key set itself is
what the claims concern). -/
def unknownFieldsMsg (keys : List String) : String :=
  "Properties '" ++ String.intercalate ", " keys ++ "' are not valid for this resource"

/-- `"Invalid field '%s'"`, the serialize-side malformed-schema error. -/
def invalidFieldSerMsg (key : String) : String := "Invalid field '" ++ key ++ "'"

/-- `"Invalid field for '%s'"`, the deserialize-side malformed-schema
error. -/
def invalidFieldDeserMsg (key : String) : String := "Invalid field for '" ++ key ++ "'"

/-- `Field.serialize`: read the attribute (an `AttributeError` if it does
not exist), return null for a null value, convert otherwise. -/
def Field.serialize (f : Field) (model : MValue) : Except PyError JValue :=
  match pyGetAttr model f.model_attr with
  | .error e => .error e
  | .ok model_value =>
    match model_value with
    | .none => .ok .null
    | v => model_to_json f.converter v

/-- `Field.deserialize`: re-serialize the current value, enforce the
read-only/create-only no-change rule by document-level equality, convert
the incoming value (null maps to null), enforce non-nullability, and
only then write the attribute. -/
def Field.deserialize (f : Field) (model : MValue) (json_value : JValue) (create : Bool) : DRes :=
  match Field.serialize f model with
  | .error e => .error (e, model)
  | .ok old_json_value =>
    if f.readonly || (f.createonly && !create) then
      if !jEq json_value old_json_value then
        .error (.serialization (readonlyMsg f.model_attr), model)
      else
        .ok model
    else
      match (match json_value with
             | .null => .ok MValue.none
             | jv => json_to_model f.converter jv : Except PyError MValue) with
      | .error e => .error (e, model)
      | .ok model_value =>
        match model_value, f.nullable with
        | .none, false => .error (.serialization (nonNullableMsg f.model_attr), model)
        | mv, _ =>
          match pySetAttr model f.model_attr mv with
          | .ok m => .ok m
          | .error e => .error (e, model)

/-- Dict lookup on a document object (`key in json_obj` / `json_obj[key]`). -/
def lookupJ : List (String × JValue) → String → Option JValue
  | [], _ => Option.none
  | (k, v) :: t, key => if k = key then some v else lookupJ t key

mutual

/-- `MapField.serialize`: read the sub-model attribute, null maps to
null, otherwise serialize through the wrapped sub-schema. -/
def MapField.serialize (model_attr : String) (mapping : List (String × SNode))
    (model : MValue) : Except PyError JValue :=
  match pyGetAttr model model_attr with
  | .error e => .error e
  | .ok model_value =>
    match model_value with
    | .none => .ok .null
    | mv =>
      match serialize_nested mv mapping with
      | .ok kvs => .ok (.obj kvs)
      | .error e => .error e

/-- One schema value on the serialize side: the
`isinstance(..., AbstractSerializer) / dict / else` dispatch of
`Serializer._serialize_nested`. -/
def serializeNode (key : String) (node : SNode) (model : MValue) : Except PyError JValue :=
  match node with
  | .field f => Field.serialize f model
  | .mapField a m _ => MapField.serialize a m model
  | .callable f => f model
  | .group g =>
    match serialize_nested model g with
    | .ok kvs => .ok (.obj kvs)
    | .error e => .error e
  | .invalid => .error (.typeError (invalidFieldSerMsg key))

/-- `Serializer._serialize_nested`: build the document object key by key
in schema order, stopping at the first raised error. -/
def serialize_nested (model : MValue) : List (String × SNode) → Except PyError (List (String × JValue))
  | [] => .ok []
  | (key, node) :: rest =>
    match serializeNode key node model with
    | .error e => .error e
    | .ok v =>
      match serialize_nested model rest with
      | .error e => .error e
      | .ok r => .ok ((key, v) :: r)

end

mutual

/-- `MapField.deserialize`: read the sub-model attribute; a null document
value either nulls the attribute (nullable) or raises; a non-null value
requires a non-null sub-model (the engine never instantiates one) and
delegates to the sub-schema, propagating `create`.  Sub-model mutations
made before a raised error persist on the model. -/
def MapField.deserialize (model_attr : String) (mapping : List (String × SNode))
    (nullable : Bool) (model : MValue) (json_value : JValue) (create : Bool) : DRes :=
  match pyGetAttr model model_attr with
  | .error e => .error (e, model)
  | .ok model_value =>
    match json_value with
    | .null =>
      if nullable then
        match pySetAttr model model_attr .none with
        | .ok m => .ok m
        | .error e => .error (e, model)
      else
        .error (.serialization (nonNullableMsg model_attr), model)
    | jv =>
      match model_value with
      | .none => .error (.serialization (nullNestedMsg model_attr), model)
      | mv =>
        match deserialize_nested mv jv mapping create with
        | .ok mv2 =>
          match pySetAttr model model_attr mv2 with
          | .ok m => .ok m
          | .error e => .error (e, model)
        | .error (e, mv2) =>
          match pySetAttr model model_attr mv2 with
          | .ok m => .error (e, m)
          | .error e2 => .error (e2, model)
termination_by (sizeOf mapping, 3)

/-- `Serializer._deserialize_nested`: the document at this level must be
an object (`.keys()` on anything else raises `AttributeError`); any
document keys missing from the schema raise one batched error before any
mutation at this level; then the schema is walked in order. -/
def deserialize_nested (model : MValue) (json_value : JValue)
    (mapping : List (String × SNode)) (create : Bool) : DRes :=
  match json_value with
  | .obj kvs =>
    let unknown_keys := (kvs.map Prod.fst).filter (fun k => !(mapping.map Prod.fst).contains k)
    if !unknown_keys.isEmpty then
      .error (.serialization (unknownFieldsMsg unknown_keys), model)
    else
      deserializeLoop model kvs mapping create
  | _ => .error (.attributeError "keys", model)
termination_by (sizeOf mapping, 2)

/-- One schema value on the deserialize side: the
`isinstance(..., AbstractSerializer) / dict / else` dispatch of
`Serializer._deserialize_nested` (a `Callable` deserialize is a no-op). -/
def deserializeNode (key : String) (node : SNode) (model : MValue) (jv : JValue)
    (create : Bool) : DRes :=
  match node with
  | .field f => Field.deserialize f model jv create
  | .mapField a m n => MapField.deserialize a m n model jv create
  | .callable _ => .ok model
  | .group g => deserialize_nested model jv g create
  | .invalid => .error (.typeError (invalidFieldDeserMsg key), model)
termination_by (sizeOf node, 2)

/-- The `for key in mapping` loop of `Serializer._deserialize_nested`:
keys absent from the document are skipped (partial update); present keys
dispatch through `deserializeNode`. -/
def deserializeLoop (model : MValue) (kvs : List (String × JValue))
    (mapping : List (String × SNode)) (create : Bool) : DRes :=
  match mapping with
  | [] => .ok model
  | (key, node) :: rest =>
    match lookupJ kvs key with
    | Option.none => deserializeLoop model kvs rest create
    | some jv =>
      match deserializeNode key node model jv create with
      | .error em => .error em
      | .ok m2 => deserializeLoop m2 kvs rest create
termination_by (sizeOf mapping, 1)

end

/-- `Serializer.serialize`: walk the whole schema tree from the root. -/
def Serializer.serialize (mapping : List (String × SNode)) (model : MValue) :
    Except PyError JValue :=
  match serialize_nested model mapping with
  | .ok kvs => .ok (.obj kvs)
  | .error e => .error e

/-- `Serializer.deserialize`: apply a (possibly partial) document onto
the model. -/
def Serializer.deserialize (mapping : List (String × SNode)) (model : MValue)
    (json_value : JValue) (create : Bool) : DRes :=
  deserialize_nested model json_value mapping create

/-- `Serializer.serialize_all`: serialize an ordered sequence of models,
stopping at the first error. -/
def Serializer.serialize_all (mapping : List (String × SNode)) :
    List MValue → Except PyError (List JValue)
  | [] => .ok []
  | m :: ms =>
    match Serializer.serialize mapping m with
    | .error e => .error e
    | .ok v =>
      match Serializer.serialize_all mapping ms with
      | .error e => .error e
      | .ok vs => .ok (v :: vs)

/-- The converter round-trip property of the spec: serializing model
value `v` through `c` and deserializing the result returns `v`. -/
def roundTrips (c : Conv) (v : MValue) : Prop :=
  ∃ jv, model_to_json c v = .ok jv ∧ json_to_model c jv = .ok v

mutual

/-- The model attributes one schema value can write when its key is
present with document value `jv` (a plain-dict branch recurses with its
sub-document). -/
def touchedNode : SNode → JValue → List String
  | .field f, _ => [f.model_attr]
  | .mapField a _ _, _ => [a]
  | .callable _, _ => []
  | .group g, .obj kvs2 => touched g kvs2
  | .group _, _ => []
  | .invalid, _ => []

/-- The model attributes a deserialize of document object `kvs` against
`mapping` can write: only schema keys present in the document
contribute. -/
def touched : List (String × SNode) → List (String × JValue) → List String
  | [], _ => []
  | (key, node) :: rest, kvs =>
    match lookupJ kvs key with
    | Option.none => touched rest kvs
    | some jv => touchedNode node jv ++ touched rest kvs

end

/-- Replace the schema value at key `k` by a benign empty plain-dict
branch, keeping every key (used to state that a malformed node at a key
absent from the document does not affect deserialization). -/
def scrubKey (k : String) (mapping : List (String × SNode)) : List (String × SNode) :=
  mapping.map (fun p => if p.1 = k then (p.1, SNode.group []) else p)

/-! ## Digit and date formatting lemmas -/

theorem digitChar_toNat (n : Nat) : (digitChar n).toNat = 48 + n % 10 := by
  have h : n % 10 < 10 := Nat.mod_lt _ (by omega)
  have hv : (48 + n % 10).isValidChar := Or.inl (by omega)
  simp [digitChar, Char.ofNat, hv, Char.toNat, Char.ofNatAux]
  rfl

theorem digitChar_isDigit (n : Nat) : (digitChar n).isDigit = true := by
  have h : n % 10 < 10 := Nat.mod_lt _ (by omega)
  have hv : (48 + n % 10).isValidChar := Or.inl (by omega)
  simp [Char.isDigit, digitChar, Char.ofNat, hv, Char.ofNatAux, UInt32.le_def, BitVec.le_def]
  omega

theorem digitVal_digitChar (n : Nat) : digitVal (digitChar n) = n % 10 := by
  have h : n % 10 < 10 := Nat.mod_lt _ (by omega)
  simp [digitVal, digitChar_toNat]

/-- `strptime` inverts `%04d-%02d-%02d` formatting on in-range
components. -/
theorem parseDateChars_isoDate (y m d : Nat) (hy : y ≤ 9999) (hm : m ≤ 99) (hd : d ≤ 99) :
    parseDateChars (isoDate y m d) = some (y, m, d) := by
  have hdash : '-'.isDigit = false := by decide
  simp only [isoDate, parseDateChars, spanDigits, pad4, pad2, List.cons_append,
    List.nil_append, List.takeWhile_cons, List.dropWhile_cons, digitChar_isDigit,
    hdash, if_true, if_false, Bool.false_eq_true]
  norm_num [digitsVal, digitVal_digitChar, List.takeWhile, List.dropWhile, hdash]
  omega

set_option maxHeartbeats 2000000 in
/-- `strptime` with the microsecond format inverts `isoformat()` when
the microsecond is non-zero (the formatter emits the `.%06d` part). -/
theorem parseDateTimeChars_iso_frac (y mo d h mi s us : Nat) (hy : y ≤ 9999) (hmo : mo ≤ 99)
    (hd : d ≤ 99) (hh : h ≤ 99) (hmi : mi ≤ 99) (hs : s ≤ 99) (hus : us ≤ 999999)
    (hne : us ≠ 0) :
    parseDateTimeChars (isoDateTime y mo d h mi s us) true = some (y, mo, d, h, mi, s, us) := by
  have hdash : '-'.isDigit = false := by decide
  have hcolon : ':'.isDigit = false := by decide
  have hT : 'T'.isDigit = false := by decide
  have hdot : '.'.isDigit = false := by decide
  have husne : (us == 0) = false := by simp [hne]
  rw [isoDateTime, isoDateTimeSep, husne]
  simp only [isoDate, parseDateTimeChars, spanDigits, pad4, pad2,
    pad6, List.cons_append, List.nil_append, List.takeWhile_cons, List.dropWhile_cons,
    digitChar_isDigit, hdash, hcolon, hT, hdot, if_true, if_false, Bool.false_eq_true]
  norm_num [digitsVal, digitVal_digitChar, List.takeWhile, List.dropWhile, hdash, hcolon, hT, hdot]
  omega

set_option maxHeartbeats 2000000 in
/-- For a zero microsecond the formatter omits the fraction: the
microsecond `strptime` attempt fails and the fallback format inverts the
formatting. -/
theorem parseDateTimeChars_iso_nofrac (y mo d h mi s : Nat) (hy : y ≤ 9999) (hmo : mo ≤ 99)
    (hd : d ≤ 99) (hh : h ≤ 99) (hmi : mi ≤ 99) (hs : s ≤ 99) :
    parseDateTimeChars (isoDateTime y mo d h mi s 0) true = Option.none ∧
    parseDateTimeChars (isoDateTime y mo d h mi s 0) false = some (y, mo, d, h, mi, s, 0) := by
  have hdash : '-'.isDigit = false := by decide
  have hcolon : ':'.isDigit = false := by decide
  have hT : 'T'.isDigit = false := by decide
  refine ⟨?_, ?_⟩
  · rw [isoDateTime, isoDateTimeSep]
    simp only [isoDate, parseDateTimeChars, spanDigits, pad4, pad2,
      List.cons_append, List.nil_append, List.append_nil, List.takeWhile_cons,
      List.dropWhile_cons, digitChar_isDigit, hdash, hcolon, hT, if_true, if_false,
      Bool.false_eq_true, beq_self_eq_true]
    norm_num [List.takeWhile, List.dropWhile, hdash, hcolon, hT]
  · rw [isoDateTime, isoDateTimeSep]
    simp only [isoDate, parseDateTimeChars, spanDigits, pad4, pad2,
      List.cons_append, List.nil_append, List.append_nil, List.takeWhile_cons,
      List.dropWhile_cons, digitChar_isDigit, hdash, hcolon, hT, if_true, if_false,
      Bool.false_eq_true, beq_self_eq_true]
    norm_num [digitsVal, digitVal_digitChar, List.takeWhile, List.dropWhile, hdash, hcolon, hT]
    omega

theorem daysInMonth_le (y m : Nat) : daysInMonth y m ≤ 31 := by
  unfold daysInMonth
  split
  · split <;> omega
  · split <;> omega

/-- C1 (amended): for every scalar converter, deserialize-after-serialize
is the identity on the converter's valid model domain: any boolean,
integer, valid date and valid datetime; strings that are stripped and,
unless `allow_empty`, non-empty; and decimals whose value is exactly
representable as a binary float (dyadic rationals). -/
theorem scalar_converters_round_trip :
    (∀ ae s, pyTrim s = s → (ae = true ∨ s ≠ "") → roundTrips (.string ae) (.str s)) ∧
    (∀ b, roundTrips .boolean (.bool b)) ∧
    (∀ n : Int, roundTrips .integer (.int n)) ∧
    (∀ q : Rat, isPow2 q.den = true → roundTrips .decimal (.dec q)) ∧
    (∀ y m d, validDate y m d = true → roundTrips .date (.date y m d)) ∧
    (∀ y mo d h mi s us, validDate y mo d = true → validTime h mi s us = true →
      roundTrips .datetime (.datetime y mo d h mi s us)) := by
  refine ⟨?_, ?_, ?_, ?_, ?_, ?_⟩
  · intro ae s hts hne
    refine ⟨.str s, by simp [model_to_json, pyStrM], ?_⟩
    simp only [json_to_model, pyStrJ, hts]
    rcases hne with hae | hs
    · subst hae; simp
    · have hlen : 0 < s.length := by
        cases s with
        | mk data =>
          cases data with
          | nil => exact absurd rfl hs
          | cons c cs => simp [String.length]
      simp [hlen]
  · intro b
    exact ⟨.bool b, by simp [model_to_json, mTruthy], by simp [json_to_model, jTruthy]⟩
  · intro n
    exact ⟨.int n, by simp [model_to_json], by simp [json_to_model]⟩
  · intro q hq
    exact ⟨.float q, by simp [model_to_json, floatOfRat, hq], by simp [json_to_model]⟩
  · intro y m d h
    have hb := h
    simp only [validDate, Bool.and_eq_true, decide_eq_true_eq] at hb
    have hdm := daysInMonth_le y m
    refine ⟨.str (String.mk (isoDate y m d)), by simp [model_to_json], ?_⟩
    simp only [json_to_model]
    rw [parseDateChars_isoDate y m d (by omega) (by omega) (by omega)]
    simp [h]
  · intro y mo d h mi s us hvd hvt
    have hb := hvd
    simp only [validDate, Bool.and_eq_true, decide_eq_true_eq] at hb
    have ht := hvt
    simp only [validTime, Bool.and_eq_true, decide_eq_true_eq] at ht
    have hdm := daysInMonth_le y mo
    refine ⟨.str (String.mk (isoDateTime y mo d h mi s us)), by simp [model_to_json], ?_⟩
    simp only [json_to_model]
    by_cases hus : us = 0
    · subst hus
      obtain ⟨h1, h2⟩ := parseDateTimeChars_iso_nofrac y mo d h mi s (by omega) (by omega)
        (by omega) (by omega) (by omega) (by omega)
      rw [h1, h2]
      simp [hvd, hvt]
    · rw [parseDateTimeChars_iso_frac y mo d h mi s us (by omega) (by omega) (by omega)
        (by omega) (by omega) (by omega) (by omega) hus]
      simp [hvd, hvt]

/-- C1 witness: the round trip evaluated at one concrete value of each
scalar converter. -/
theorem scalar_converters_round_trip_witness :
    roundTrips (.string false) (.str "Ada") ∧ roundTrips .boolean (.bool true) ∧
    roundTrips .integer (.int 30) ∧ roundTrips .decimal (.dec (3 / 4)) ∧
    roundTrips .date (.date 2012 2 29) ∧ roundTrips .datetime (.datetime 2015 1 1 16 16 37 1) := by
  obtain ⟨h1, h2, h3, h4, h5, h6⟩ := scalar_converters_round_trip
  refine ⟨h1 false "Ada" rfl (Or.inr (by decide)), h2 true, h3 30, h4 (3 / 4) ?_,
    h5 2012 2 29 ?_, h6 2015 1 1 16 16 37 1 ?_ ?_⟩
  · have hd : ((3 : Rat) / 4).den = 4 := by norm_num
    rw [hd]; decide
  · decide
  · decide
  · decide

/-- C1 counterexample: the round trip is not the identity on every
decimal: the exact decimal 0.1 widens to a binary float and comes back
as a different decimal value. -/
theorem scalar_converters_round_trip_cex : ¬ roundTrips Conv.decimal (.dec (1 / 10)) := by
  rintro ⟨jv, h1, h2⟩
  have hden : ((1 : Rat) / 10).den = 10 := by norm_num
  have hfl : floatOfRat (1 / 10 : Rat) ≠ (1 / 10 : Rat) := by
    rw [floatOfRat, hden]
    norm_num [isPow2]
    decide
  simp only [model_to_json, Except.ok.injEq] at h1
  subst h1
  simp only [json_to_model, Except.ok.injEq, MValue.dec.injEq] at h2
  exact hfl h2

/-- On the writable path (not read-only, not create-only-gated) the
deserialization is: convert (null stays null), check nullability, write. -/
theorem Field.deserialize_writable (f : Field) (model : MValue) (jv : JValue) (create : Bool)
    (old : JValue) (hro : f.readonly = false) (hco : f.createonly = false ∨ create = true)
    (hser : Field.serialize f model = .ok old) :
    Field.deserialize f model jv create =
      match (match jv with
             | .null => .ok MValue.none
             | j => json_to_model f.converter j : Except PyError MValue) with
      | .error e => .error (e, model)
      | .ok model_value =>
        match model_value, f.nullable with
        | .none, false => .error (.serialization (nonNullableMsg f.model_attr), model)
        | mv, _ =>
          match pySetAttr model f.model_attr mv with
          | .ok m => .ok m
          | .error e => .error (e, model) := by
  unfold Field.deserialize
  rw [hser, hro]
  rcases hco with hc | hc <;> simp [hc]

/-- C2: a read-only field, or a create-only field outside create mode,
accepts only a document value equal (by document-level equality) to the
field's current serialized value, as a mutation-free no-op; any other
value raises the immutable-field error naming the attribute.  And with
`create = true` a non-read-only create-only field behaves exactly as the
same field without the create-only flag. -/
theorem readonly_createonly_enforcement :
    (∀ (f : Field) (model : MValue) (jv : JValue) (create : Bool) (old : JValue),
      (f.readonly = true ∨ (f.createonly = true ∧ create = false)) →
      Field.serialize f model = .ok old →
      (jEq jv old = true → Field.deserialize f model jv create = .ok model) ∧
      (jEq jv old = false →
        Field.deserialize f model jv create =
          .error (.serialization (readonlyMsg f.model_attr), model))) ∧
    (∀ (f : Field) (model : MValue) (jv : JValue),
      f.readonly = false →
      Field.deserialize f model jv true =
        Field.deserialize { f with createonly := false } model jv true) := by
  constructor
  · intro f model jv create old hgate hser
    have hcond : (f.readonly || (f.createonly && !create)) = true := by
      rcases hgate with h | ⟨h1, h2⟩
      · simp [h]
      · simp [h1, h2]
    constructor <;> intro hjeq <;>
      · unfold Field.deserialize
        rw [hser, hcond]
        simp [hjeq]
  · intro f model jv hro
    unfold Field.deserialize
    simp [hro, Field.serialize]

/-- C2 witness: a concrete read-only integer field accepts its current
value and rejects a changed one; a concrete create-only field in create
mode equals the plain writable field. -/
theorem readonly_createonly_enforcement_witness :
    Field.deserialize ⟨"y", .integer, true, false, true⟩ (.sub [("y", .int 9)]) (.int 9) false
      = .ok (.sub [("y", .int 9)]) ∧
    Field.deserialize ⟨"y", .integer, true, false, true⟩ (.sub [("y", .int 9)]) (.int 27) false
      = .error (.serialization (readonlyMsg "y"), .sub [("y", .int 9)]) ∧
    Field.deserialize ⟨"y", .integer, false, true, true⟩ (.sub [("y", .int 9)]) (.int 27) true
      = Field.deserialize ⟨"y", .integer, false, false, true⟩ (.sub [("y", .int 9)]) (.int 27) true := by
  obtain ⟨hA, hB⟩ := readonly_createonly_enforcement
  have hser : Field.serialize ⟨"y", .integer, true, false, true⟩ (.sub [("y", .int 9)])
      = .ok (.int 9) := by
    simp [Field.serialize, pyGetAttr, getA, model_to_json]
  refine ⟨(hA _ _ _ _ _ (Or.inl rfl) hser).1 (by simp [jEq, jNum]),
    (hA _ _ _ _ _ (Or.inl rfl) hser).2 (by simp [jEq, jNum]),
    hB ⟨"y", .integer, false, true, true⟩ _ _ rfl⟩

/-- C7: a writable non-nullable field rejects a null document value (or
any conversion that produces a null model value) with the non-nullable
error naming the attribute, leaving the model unchanged. -/
theorem non_nullable_violation (f : Field) (model : MValue) (jv : JValue) (create : Bool)
    (old : JValue) (hro : f.readonly = false) (hco : f.createonly = false ∨ create = true)
    (hnul : f.nullable = false) (hser : Field.serialize f model = .ok old)
    (hmv : jv = .null ∨ json_to_model f.converter jv = .ok MValue.none) :
    Field.deserialize f model jv create =
      .error (.serialization (nonNullableMsg f.model_attr), model) := by
  rw [Field.deserialize_writable f model jv create old hro hco hser]
  rcases hmv with rfl | hconv
  · simp [hnul]
  · cases jv <;> simp [hconv, hnul]

/-- C7 witness: a concrete writable non-nullable integer field given
null. -/
theorem non_nullable_violation_witness :
    Field.deserialize ⟨"age", .integer, false, false, false⟩ (.sub [("age", .int 30)]) .null false
      = .error (.serialization (nonNullableMsg "age"), .sub [("age", .int 30)]) := by
  have hser : Field.serialize ⟨"age", .integer, false, false, false⟩ (.sub [("age", .int 30)])
      = .ok (.int 30) := by
    simp [Field.serialize, pyGetAttr, getA, model_to_json]
  exact non_nullable_violation _ _ _ _ _ rfl (Or.inl rfl) rfl hser (Or.inl rfl)

/-- C9: `Field.deserialize` is atomic: every raised error carries the
model exactly as it was passed in — the single attribute write happens
only on the success path. -/
theorem field_deserialize_atomic (f : Field) (model : MValue) (jv : JValue) (create : Bool)
    (e : PyError) (m' : MValue) (h : Field.deserialize f model jv create = .error (e, m')) :
    m' = model := by
  unfold Field.deserialize at h
  repeat' split at h
  all_goals cases h <;> rfl

/-- C9 witness: a failing concrete call (non-nullable violation) hands
back the untouched model. -/
theorem field_deserialize_atomic_witness :
    Field.deserialize ⟨"age", .integer, false, false, false⟩ (.sub [("age", .int 30)]) .null false
      = .error (.serialization (nonNullableMsg "age"), .sub [("age", .int 30)]) ∧
    (∀ e m', Field.deserialize ⟨"age", .integer, false, false, false⟩
        (.sub [("age", .int 30)]) .null false = .error (e, m') → m' = .sub [("age", .int 30)]) := by
  constructor
  · have hser : Field.serialize ⟨"age", .integer, false, false, false⟩ (.sub [("age", .int 30)])
        = .ok (.int 30) := by
      simp [Field.serialize, pyGetAttr, getA, model_to_json]
    rw [Field.deserialize_writable _ _ _ _ _ rfl (Or.inl rfl) hser]
  · intro e m' h
    exact field_deserialize_atomic _ _ _ _ _ _ h

/-- C8 counterexample: the `Boolean` converter does perform string
coercion: the non-boolean document string `"false"` is accepted and
coerced (by truthiness) to the boolean `true`, rather than being
rejected. -/
theorem boolean_no_string_coercion_cex :
    json_to_model .boolean (.str "false") = .ok (.bool true) := by
  simp [json_to_model, jTruthy]

/-- C8 (amended): `Boolean` is the identity on boolean values in both
directions; every other input, in either direction, is coerced to a
boolean by Python truthiness (never rejected). -/
theorem boolean_identity_and_truthiness :
    (∀ b, model_to_json .boolean (.bool b) = .ok (.bool b) ∧
      json_to_model .boolean (.bool b) = .ok (.bool b)) ∧
    (∀ v, model_to_json .boolean v = .ok (.bool (mTruthy v))) ∧
    (∀ jv, json_to_model .boolean jv = .ok (.bool (jTruthy jv))) := by
  refine ⟨fun b => ⟨?_, ?_⟩, fun v => ?_, fun jv => ?_⟩ <;>
    simp [model_to_json, json_to_model, mTruthy, jTruthy]

theorem jtmList_ok_iff (c : Conv) (xs : List JValue) (ys : List MValue) :
    jtmList c xs = .ok ys ↔ List.Forall₂ (fun x y => json_to_model c x = .ok y) xs ys := by
  induction xs generalizing ys with
  | nil => cases ys <;> simp [jtmList]
  | cons x xs ih =>
    constructor
    · intro h
      rw [jtmList] at h
      split at h
      · cases h
      · split at h
        · cases h
        · cases h
          exact List.Forall₂.cons (by assumption) ((ih _).1 (by assumption))
    · intro h
      cases h with
      | cons h1 h2 => rw [jtmList, h1, (ih _).2 h2]

theorem mtjList_ok_iff (c : Conv) (xs : List MValue) (ys : List JValue) :
    mtjList c xs = .ok ys ↔ List.Forall₂ (fun x y => model_to_json c x = .ok y) xs ys := by
  induction xs generalizing ys with
  | nil => cases ys <;> simp [mtjList]
  | cons x xs ih =>
    constructor
    · intro h
      rw [mtjList] at h
      split at h
      · cases h
      · split at h
        · cases h
        · cases h
          exact List.Forall₂.cons (by assumption) ((ih _).1 (by assumption))
    · intro h
      cases h with
      | cons h1 h2 => rw [mtjList, h1, (ih _).2 h2]

/-- C6: the `Array` converter rejects a raw character string outright
(even though it is iterable) and every non-iterable document value; on
actual arrays, both directions convert element-wise through the inner
converter, preserving order and length. -/
theorem array_converter_behavior :
    (∀ inner s, json_to_model (.array inner) (.str s) =
      .error (.serialization "String cannot be converted to an array")) ∧
    (∀ inner, json_to_model (.array inner) .null = .error (.serialization notIterableErr)) ∧
    (∀ inner n, json_to_model (.array inner) (.int n) = .error (.serialization notIterableErr)) ∧
    (∀ inner q, json_to_model (.array inner) (.float q) = .error (.serialization notIterableErr)) ∧
    (∀ inner b, json_to_model (.array inner) (.bool b) = .error (.serialization notIterableErr)) ∧
    (∀ inner xs ys, json_to_model (.array inner) (.arr xs) = .ok (.list ys) ↔
      List.Forall₂ (fun x y => json_to_model inner x = .ok y) xs ys) ∧
    (∀ inner xs ys, model_to_json (.array inner) (.list xs) = .ok (.arr ys) ↔
      List.Forall₂ (fun x y => model_to_json inner x = .ok y) xs ys) ∧
    (∀ inner xs ys, json_to_model (.array inner) (.arr xs) = .ok (.list ys) →
      ys.length = xs.length) := by
  have harr : ∀ inner xs ys, json_to_model (.array inner) (.arr xs) = .ok (.list ys) ↔
      List.Forall₂ (fun x y => json_to_model inner x = .ok y) xs ys := by
    intro inner xs ys
    rw [json_to_model, ← jtmList_ok_iff]
    cases h : jtmList inner xs with
    | error e => cases e <;> simp [h]
    | ok vs => simp [h]
  refine ⟨fun inner s => by simp [json_to_model], fun inner => by simp [json_to_model],
    fun inner n => by simp [json_to_model], fun inner q => by simp [json_to_model],
    fun inner b => by simp [json_to_model], harr, ?_, ?_⟩
  · intro inner xs ys
    rw [model_to_json, ← mtjList_ok_iff]
    cases h : mtjList inner xs with
    | error e => simp [h]
    | ok vs => simp [h]
  · intro inner xs ys h
    exact (List.Forall₂.length_eq ((harr inner xs ys).1 h)).symm

/-- C6 witness: the concrete behaviors at a string, a number, and a
two-element array of dates. -/
theorem array_converter_behavior_witness :
    json_to_model (.array .date) (.str "2014-01-01") =
      .error (.serialization "String cannot be converted to an array") ∧
    json_to_model (.array .date) (.int 123) = .error (.serialization notIterableErr) ∧
    json_to_model (.array .date) (.arr [.str "2002-02-02", .str "2001-01-01"]) =
      .ok (.list [.date 2002 2 2, .date 2001 1 1]) ∧
    ([MValue.date 2002 2 2, MValue.date 2001 1 1].length = 2) := by
  obtain ⟨hs, hnull, hint, hfloat, hbool, harr, hmodel, hlen⟩ := array_converter_behavior
  refine ⟨hs .date "2014-01-01", hint .date 123, (harr .date _ _).2 ?_, rfl⟩
  refine List.Forall₂.cons ?_ (List.Forall₂.cons ?_ List.Forall₂.nil) <;>
    · simp only [json_to_model]
      rfl

/-- C5: nested-map field null semantics: a null sub-model serializes to
null (never a mapping); deserializing null nulls the attribute when
nullable and raises the non-nullable error when not; deserializing a
non-null document value against a null sub-model raises the
null-nested-target error without touching the model (no sub-model is
instantiated); against a non-null sub-model it delegates to the
sub-schema propagating `create`, storing the sub-model back (also when
the delegated call raises, keeping its partial mutations). -/
theorem nested_null_semantics :
    (∀ attr mapping model, pyGetAttr model attr = .ok .none →
      MapField.serialize attr mapping model = .ok .null) ∧
    (∀ attr mapping (l : List (String × MValue)) v create, getA l attr = some v →
      MapField.deserialize attr mapping true (.sub l) .null create =
        .ok (.sub (setA l attr MValue.none))) ∧
    (∀ attr mapping (l : List (String × MValue)) v create, getA l attr = some v →
      MapField.deserialize attr mapping false (.sub l) .null create =
        .error (.serialization (nonNullableMsg attr), .sub l)) ∧
    (∀ attr mapping nullable (l : List (String × MValue)) jv create,
      getA l attr = some .none → jv ≠ .null →
      MapField.deserialize attr mapping nullable (.sub l) jv create =
        .error (.serialization (nullNestedMsg attr), .sub l)) ∧
    (∀ attr mapping nullable (l sub : List (String × MValue)) jv create,
      getA l attr = some (.sub sub) → jv ≠ .null →
      MapField.deserialize attr mapping nullable (.sub l) jv create =
        match deserialize_nested (.sub sub) jv mapping create with
        | .ok mv2 => .ok (.sub (setA l attr mv2))
        | .error (e, mv2) => .error (e, .sub (setA l attr mv2))) := by
  refine ⟨?_, ?_, ?_, ?_, ?_⟩
  · intro attr mapping model hget
    unfold MapField.serialize
    rw [hget]
  · intro attr mapping l v create hget
    unfold MapField.deserialize
    simp [pyGetAttr, hget, pySetAttr]
  · intro attr mapping l v create hget
    unfold MapField.deserialize
    simp [pyGetAttr, hget]
  · intro attr mapping nullable l jv create hget hne
    unfold MapField.deserialize
    cases jv with
    | null => exact absurd rfl hne
    | str s => simp [pyGetAttr, hget]
    | int n => simp [pyGetAttr, hget]
    | float q => simp [pyGetAttr, hget]
    | bool b => simp [pyGetAttr, hget]
    | arr xs => simp [pyGetAttr, hget]
    | obj kvs => simp [pyGetAttr, hget]
  · intro attr mapping nullable l sub jv create hget hne
    unfold MapField.deserialize
    cases jv with
    | null => exact absurd rfl hne
    | str s => simp [pyGetAttr, hget, pySetAttr]
    | int n => simp [pyGetAttr, hget, pySetAttr]
    | float q => simp [pyGetAttr, hget, pySetAttr]
    | bool b => simp [pyGetAttr, hget, pySetAttr]
    | arr xs => simp [pyGetAttr, hget, pySetAttr]
    | obj kvs => simp [pyGetAttr, hget, pySetAttr]

/-- C5 witness: concrete nested point models exercising every branch:
null serialize, nullable null-assignment, non-nullable rejection,
null-nested-target, and a delegated nested update. -/
theorem nested_null_semantics_witness :
    MapField.serialize "y" [("yx", .field ⟨"x", .integer, false, false, true⟩)]
      (.sub [("y", .none)]) = .ok .null ∧
    MapField.deserialize "y" [("yx", .field ⟨"x", .integer, false, false, true⟩)] true
      (.sub [("x", .int 1), ("y", .sub [("x", .int 3)])]) .null false
      = .ok (.sub [("x", .int 1), ("y", .none)]) ∧
    MapField.deserialize "y" [("yx", .field ⟨"x", .integer, false, false, true⟩)] false
      (.sub [("y", .sub [("x", .int 3)])]) .null false
      = .error (.serialization (nonNullableMsg "y"), .sub [("y", .sub [("x", .int 3)])]) ∧
    MapField.deserialize "y" [("yx", .field ⟨"x", .integer, false, false, true⟩)] false
      (.sub [("y", .none)]) (.obj [("yx", .int 9)]) false
      = .error (.serialization (nullNestedMsg "y"), .sub [("y", .none)]) ∧
    MapField.deserialize "y" [("yx", .field ⟨"x", .integer, false, false, true⟩)] false
      (.sub [("y", .sub [("x", .int 3)])]) (.obj [("yx", .int 9)]) true
      = .ok (.sub [("y", .sub [("x", .int 9)])]) := by
  obtain ⟨h1, h2, h3, h4, h5⟩ := nested_null_semantics
  refine ⟨h1 _ _ _ (by simp [pyGetAttr, getA]), ?_, ?_, ?_, ?_⟩
  · rw [h2 "y" _ _ (.sub [("x", .int 3)]) false (by simp [getA])]
    simp [setA]
  · exact h3 "y" _ _ (.sub [("x", .int 3)]) false (by simp [getA])
  · exact h4 "y" _ false _ _ false (by simp [getA]) (by simp)
  · rw [h5 "y" _ false _ [("x", .int 3)] _ true (by simp [getA]) (by simp)]
    simp [deserialize_nested, deserializeLoop, deserializeNode, lookupJ, Field.deserialize,
      Field.serialize, pyGetAttr, getA, model_to_json, json_to_model, jEq, jNum,
      pySetAttr, setA]

theorem getA_setA (l : List (String × MValue)) (a : String) (v : MValue) (b : String) :
    getA (setA l a v) b = if b = a then some v else getA l b := by
  induction l with
  | nil =>
    simp only [setA, getA]
    by_cases hab : b = a
    · subst hab; simp
    · rw [if_neg (fun h => hab h.symm), if_neg hab]
  | cons p t ih =>
    obtain ⟨k, w⟩ := p
    by_cases hk : k = a
    · subst hk
      simp only [setA, if_pos rfl]
      by_cases hb : b = k
      · subst hb; simp [getA]
      · have h2 : ¬k = b := fun h => hb h.symm
        simp [getA, hb, h2]
    · simp only [setA, if_neg hk]
      by_cases hkb : k = b
      · subst hkb
        have h2 : ¬k = a := hk
        simp [getA, fun h => hk (h : k = a), eq_comm, h2]
      · simp [getA, hkb, ih]

theorem pySetAttr_frame {model : MValue} {a : String} {v m : MValue}
    (h : pySetAttr model a v = .ok m) {b : String} (hb : b ≠ a) :
    pyGetAttr m b = pyGetAttr model b := by
  cases model <;> simp [pySetAttr] at h
  subst h
  simp [pyGetAttr, getA_setA, hb]

/-- A successful `Field.deserialize` writes only the field's own model
attribute. -/
theorem fieldDeserialize_ok_frame (f : Field) (model : MValue) (jv : JValue) (create : Bool)
    (m' : MValue) (h : Field.deserialize f model jv create = .ok m') (b : String)
    (hb : b ≠ f.model_attr) : pyGetAttr m' b = pyGetAttr model b := by
  unfold Field.deserialize at h
  repeat' split at h
  all_goals cases h
  all_goals first
    | rfl
    | exact pySetAttr_frame (by assumption) hb

/-- A successful `MapField.deserialize` writes only its own model
attribute at this level. -/
theorem mapFieldDeserialize_ok_frame (attr : String) (mapping : List (String × SNode))
    (nullable : Bool) (model : MValue) (jv : JValue) (create : Bool) (m' : MValue)
    (h : MapField.deserialize attr mapping nullable model jv create = .ok m') (b : String)
    (hb : b ≠ attr) : pyGetAttr m' b = pyGetAttr model b := by
  unfold MapField.deserialize at h
  repeat' split at h
  all_goals cases h
  all_goals first
    | rfl
    | exact pySetAttr_frame (by assumption) hb

theorem lookupJ_eq_none (kvs : List (String × JValue)) (k : String)
    (h : k ∉ kvs.map Prod.fst) : lookupJ kvs k = Option.none := by
  induction kvs with
  | nil => rfl
  | cons p t ih =>
    obtain ⟨key, v⟩ := p
    simp only [List.map_cons, List.mem_cons] at h
    push_neg at h
    rw [lookupJ, if_neg (fun hh => h.1 hh.symm), ih h.2]

theorem deserializeLoop_nilDoc (mapping : List (String × SNode)) (model : MValue)
    (create : Bool) : deserializeLoop model [] mapping create = .ok model := by
  induction mapping with
  | nil => rw [deserializeLoop]
  | cons p rest ih =>
    obtain ⟨key, node⟩ := p
    rw [deserializeLoop]
    exact ih



mutual

/-- A successful schema-value deserialize writes only the attributes in
`touchedNode`. -/
theorem deserializeNode_frame : ∀ (key : String) (node : SNode) (model : MValue) (jv : JValue)
    (create : Bool) (m' : MValue),
    deserializeNode key node model jv create = .ok m' →
    ∀ b, b ∉ touchedNode node jv → pyGetAttr m' b = pyGetAttr model b
  | key, .field f, model, jv, create, m', h, b, hb => by
    simp only [deserializeNode] at h
    simp only [touchedNode, List.mem_singleton] at hb
    exact fieldDeserialize_ok_frame f model jv create m' h b hb
  | key, .mapField a m n, model, jv, create, m', h, b, hb => by
    simp only [deserializeNode] at h
    simp only [touchedNode, List.mem_singleton] at hb
    exact mapFieldDeserialize_ok_frame a m n model jv create m' h b hb
  | key, .callable f, model, jv, create, m', h, b, hb => by
    simp only [deserializeNode] at h
    cases h
    rfl
  | key, .group g, model, .obj kvs2, create, m', h, b, hb => by
    simp only [deserializeNode] at h
    simp only [touchedNode] at hb
    exact deserialize_nested_frame g model kvs2 create m' h b hb
  | key, .group g, model, .null, create, m', h, b, hb => by
    simp [deserializeNode, deserialize_nested] at h
  | key, .group g, model, .str s, create, m', h, b, hb => by
    simp [deserializeNode, deserialize_nested] at h
  | key, .group g, model, .int n, create, m', h, b, hb => by
    simp [deserializeNode, deserialize_nested] at h
  | key, .group g, model, .float q, create, m', h, b, hb => by
    simp [deserializeNode, deserialize_nested] at h
  | key, .group g, model, .bool b2, create, m', h, b, hb => by
    simp [deserializeNode, deserialize_nested] at h
  | key, .group g, model, .arr xs, create, m', h, b, hb => by
    simp [deserializeNode, deserialize_nested] at h
  | key, .invalid, model, jv, create, m', h, b, hb => by
    simp only [deserializeNode] at h
    cases h
termination_by key node => (sizeOf node, 2)

/-- A successful level deserialize writes only the attributes in
`touched`. -/
theorem deserialize_nested_frame : ∀ (mapping : List (String × SNode)) (model : MValue)
    (kvs : List (String × JValue)) (create : Bool) (m' : MValue),
    deserialize_nested model (.obj kvs) mapping create = .ok m' →
    ∀ b, b ∉ touched mapping kvs → pyGetAttr m' b = pyGetAttr model b
  | mapping, model, kvs, create, m', h, b, hb => by
    rw [deserialize_nested] at h
    split at h
    · cases h
    · exact deserializeLoop_frame mapping model kvs create m' h b hb
termination_by mapping => (sizeOf mapping, 2)

/-- The schema loop writes only the attributes in `touched`. -/
theorem deserializeLoop_frame : ∀ (mapping : List (String × SNode)) (model : MValue)
    (kvs : List (String × JValue)) (create : Bool) (m' : MValue),
    deserializeLoop model kvs mapping create = .ok m' →
    ∀ b, b ∉ touched mapping kvs → pyGetAttr m' b = pyGetAttr model b
  | [], model, kvs, create, m', h, b, hb => by
    rw [deserializeLoop] at h
    cases h
    rfl
  | (key, node) :: rest, model, kvs, create, m', h, b, hb => by
    rw [deserializeLoop] at h
    cases hlk : lookupJ kvs key with
    | none =>
      simp only [hlk] at h
      rw [touched, hlk] at hb
      exact deserializeLoop_frame rest model kvs create m' h b hb
    | some jv =>
      simp only [hlk] at h
      rw [touched, hlk] at hb
      rw [List.mem_append] at hb
      push_neg at hb
      cases hnode : deserializeNode key node model jv create with
      | error em =>
        simp only [hnode] at h
        cases h
      | ok m2 =>
        simp only [hnode] at h
        calc pyGetAttr m' b
            = pyGetAttr m2 b := deserializeLoop_frame rest m2 kvs create m' h b hb.2
          _ = pyGetAttr model b := deserializeNode_frame key node model jv create m2 hnode b hb.1
termination_by mapping => (sizeOf mapping, 1)

end



/-- C3: at every nesting level, a document with keys not in the schema at
that level fails immediately with one error listing every offending key,
before any mutation at that level (the error carries the model exactly
as it entered the level); the check is per level, so a concrete nested
schema shows a shallow mutation persisting past a deeper level's
unknown-key failure. -/
theorem unknown_keys_batched_rejection :
    (∀ model kvs mapping create,
      (kvs.map Prod.fst).filter (fun k => !(mapping.map Prod.fst).contains k) ≠ [] →
      deserialize_nested model (.obj kvs) mapping create =
        .error (.serialization (unknownFieldsMsg
          ((kvs.map Prod.fst).filter (fun k => !(mapping.map Prod.fst).contains k))), model)) ∧
    (deserialize_nested (.sub [("x", .int 1), ("y", .int 2)])
        (.obj [("a", .int 7), ("n", .obj [("bogus", .int 0)])])
        [("a", .field ⟨"x", .integer, false, false, true⟩),
         ("n", .group [("b", .field ⟨"y", .integer, false, false, true⟩)])] false
      = .error (.serialization (unknownFieldsMsg ["bogus"]),
          .sub [("x", .int 7), ("y", .int 2)]) ∧
      pyGetAttr (.sub [("x", .int 7), ("y", .int 2)]) "x"
        ≠ pyGetAttr (.sub [("x", .int 1), ("y", .int 2)]) "x") := by
  refine ⟨?_, ?_, ?_⟩
  · intro model kvs mapping create hne
    rw [deserialize_nested]
    cases hf : (kvs.map Prod.fst).filter (fun k => !(mapping.map Prod.fst).contains k) with
    | nil => exact absurd hf hne
    | cons k ks => simp [hf]
  · simp [deserialize_nested, deserializeLoop, deserializeNode, lookupJ, Field.deserialize,
      Field.serialize, pyGetAttr, getA, model_to_json, json_to_model, jEq, jNum,
      pySetAttr, setA, unknownFieldsMsg]
  · simp [pyGetAttr, getA]

/-- C3 witness: one concrete unknown key is rejected with the batched
message and an untouched model. -/
theorem unknown_keys_batched_rejection_witness :
    deserialize_nested (.sub [("x", .int 1)]) (.obj [("zz", .int 5), ("a", .int 7)])
      [("a", .field ⟨"x", .integer, false, false, true⟩)] false
      = .error (.serialization (unknownFieldsMsg ["zz"]), .sub [("x", .int 1)]) := by
  have h := unknown_keys_batched_rejection.1 (.sub [("x", .int 1)])
    [("zz", .int 5), ("a", .int 7)] [("a", .field ⟨"x", .integer, false, false, true⟩)] false
    (by simp)
  simpa using h

/-- C4: deserializing a document mutates only the attributes reachable
from schema keys present in the document (`touched`); every other
attribute reads back unchanged, and the empty document is a no-op. -/
theorem partial_update_frame :
    (∀ mapping model kvs create m',
      Serializer.deserialize mapping model (.obj kvs) create = .ok m' →
      ∀ b, b ∉ touched mapping kvs → pyGetAttr m' b = pyGetAttr model b) ∧
    (∀ mapping model create, Serializer.deserialize mapping model (.obj []) create = .ok model) := by
  constructor
  · intro mapping model kvs create m' h b hb
    exact deserialize_nested_frame mapping model kvs create m' h b hb
  · intro mapping model create
    rw [Serializer.deserialize, deserialize_nested]
    simp [deserializeLoop_nilDoc]

/-- C4 witness: on the spec's end-to-end example, deserializing
`{"age": 31}` updates `age` and provably leaves `first_name` reading
back unchanged. -/
theorem partial_update_frame_witness :
    Serializer.deserialize
      [("name", .field ⟨"first_name", .string false, false, false, true⟩),
       ("age", .field ⟨"age", .integer, false, false, false⟩)]
      (.sub [("first_name", .str "Ada"), ("age", .int 30)]) (.obj [("age", .int 31)]) false
      = .ok (.sub [("first_name", .str "Ada"), ("age", .int 31)]) ∧
    "first_name" ∉ touched
      [("name", .field ⟨"first_name", .string false, false, false, true⟩),
       ("age", .field ⟨"age", .integer, false, false, false⟩)] [("age", .int 31)] ∧
    pyGetAttr (.sub [("first_name", .str "Ada"), ("age", .int 31)]) "first_name"
      = pyGetAttr (.sub [("first_name", .str "Ada"), ("age", .int 30)]) "first_name" := by
  have hok : Serializer.deserialize
      [("name", .field ⟨"first_name", .string false, false, false, true⟩),
       ("age", .field ⟨"age", .integer, false, false, false⟩)]
      (.sub [("first_name", .str "Ada"), ("age", .int 30)]) (.obj [("age", .int 31)]) false
      = .ok (.sub [("first_name", .str "Ada"), ("age", .int 31)]) := by
    simp [Serializer.deserialize, deserialize_nested, deserializeLoop, deserializeNode,
      lookupJ, Field.deserialize, Field.serialize, pyGetAttr, getA, model_to_json,
      json_to_model, jEq, jNum, pySetAttr, setA]
  have hnt : "first_name" ∉ touched
      [("name", .field ⟨"first_name", .string false, false, false, true⟩),
       ("age", .field ⟨"age", .integer, false, false, false⟩)] [("age", .int 31)] := by
    simp [touched, touchedNode, lookupJ]
  exact ⟨hok, hnt, partial_update_frame.1 _ _ _ _ _ hok "first_name" hnt⟩



theorem scrubKey_keys (k : String) (mapping : List (String × SNode)) :
    (scrubKey k mapping).map Prod.fst = mapping.map Prod.fst := by
  induction mapping with
  | nil => rfl
  | cons p rest ih =>
    obtain ⟨key, node⟩ := p
    by_cases hk : key = k <;> simp [scrubKey, hk] <;> simpa [scrubKey] using ih

theorem serialize_nested_invalid : ∀ (mapping : List (String × SNode)) (k : String)
    (model : MValue), (k, SNode.invalid) ∈ mapping →
    ∃ e, serialize_nested model mapping = .error e := by
  intro mapping k model hmem
  induction mapping with
  | nil => cases hmem
  | cons p rest ih =>
    obtain ⟨key, node⟩ := p
    rcases List.mem_cons.1 hmem with heq | hmem2
    · cases heq
      refine ⟨.typeError (invalidFieldSerMsg k), ?_⟩
      rw [serialize_nested]
      simp [serializeNode]
    · cases hnode : serializeNode key node model with
      | error e =>
        refine ⟨e, ?_⟩
        rw [serialize_nested, hnode]
      | ok v =>
        obtain ⟨e, he⟩ := ih hmem2
        refine ⟨e, ?_⟩
        rw [serialize_nested, hnode, he]

theorem deserializeLoop_invalid (k : String) (kvs : List (String × JValue)) (create : Bool)
    (hlk : lookupJ kvs k ≠ Option.none) : ∀ (mapping : List (String × SNode)) (model : MValue),
    (k, SNode.invalid) ∈ mapping → ∀ m', deserializeLoop model kvs mapping create ≠ .ok m' := by
  intro mapping
  induction mapping with
  | nil =>
    intro model hmem
    cases hmem
  | cons p rest ih =>
    obtain ⟨key, node⟩ := p
    intro model hmem m' h
    rw [deserializeLoop] at h
    rcases List.mem_cons.1 hmem with heq | hmem2
    · cases heq
      cases hl : lookupJ kvs k with
      | none => exact hlk hl
      | some jv =>
        simp only [hl] at h
        simp [deserializeNode] at h
    · cases hl : lookupJ kvs key with
      | none =>
        simp only [hl] at h
        exact ih model hmem2 m' h
      | some jv =>
        simp only [hl] at h
        cases hnode : deserializeNode key node model jv create with
        | error em => simp [hnode] at h
        | ok m2 =>
          simp only [hnode] at h
          exact ih m2 hmem2 m' h

theorem deserializeLoop_scrub : ∀ (mapping : List (String × SNode)) (k : String)
    (model : MValue) (kvs : List (String × JValue)) (create : Bool),
    k ∉ kvs.map Prod.fst →
    deserializeLoop model kvs mapping create =
      deserializeLoop model kvs (scrubKey k mapping) create := by
  intro mapping k model kvs create hk
  induction mapping generalizing model with
  | nil => rfl
  | cons p rest ih =>
    obtain ⟨key, node⟩ := p
    by_cases hkey : key = k
    · subst hkey
      rw [deserializeLoop]
      rw [lookupJ_eq_none kvs key hk]
      rw [show scrubKey key ((key, node) :: rest) = (key, SNode.group []) :: scrubKey key rest by
        simp [scrubKey]]
      rw [deserializeLoop, lookupJ_eq_none kvs key hk]
      exact ih model
    · rw [show scrubKey k ((key, node) :: rest) = (key, node) :: scrubKey k rest by
        simp [scrubKey, hkey]]
      rw [deserializeLoop, deserializeLoop]
      cases hl : lookupJ kvs key with
      | none =>
        simp only [hl]
        exact ih model
      | some jv =>
        simp only [hl]
        cases hnode : deserializeNode key node model jv create with
        | error em => simp only [hnode]
        | ok m2 =>
          simp only [hnode]
          exact ih m2

/-- C10: a malformed schema value (neither a field-like serializer nor a
plain mapping) makes `serialize` fail for every model; `deserialize`
fails whenever the offending key is present in the document, but when
the document omits that key the whole deserialize behaves exactly as if
the malformed value were a benign empty branch — the malformed schema
alone causes no failure. -/
theorem invalid_schema_node_behavior :
    (∀ (mapping : List (String × SNode)) (k : String) (model : MValue),
      (k, SNode.invalid) ∈ mapping → ∃ e, Serializer.serialize mapping model = .error e) ∧
    (∀ (mapping : List (String × SNode)) (k : String) (model : MValue)
      (kvs : List (String × JValue)) (create : Bool),
      (k, SNode.invalid) ∈ mapping → lookupJ kvs k ≠ Option.none →
      ∀ m', Serializer.deserialize mapping model (.obj kvs) create ≠ .ok m') ∧
    (∀ (mapping : List (String × SNode)) (k : String) (model : MValue)
      (kvs : List (String × JValue)) (create : Bool),
      k ∉ kvs.map Prod.fst →
      Serializer.deserialize mapping model (.obj kvs) create =
        Serializer.deserialize (scrubKey k mapping) model (.obj kvs) create) := by
  refine ⟨?_, ?_, ?_⟩
  · intro mapping k model hmem
    obtain ⟨e, he⟩ := serialize_nested_invalid mapping k model hmem
    exact ⟨e, by rw [Serializer.serialize, he]⟩
  · intro mapping k model kvs create hmem hlk m' h
    rw [Serializer.deserialize, deserialize_nested] at h
    split at h
    · cases h
    · exact deserializeLoop_invalid k kvs create hlk mapping model hmem m' h
  · intro mapping k model kvs create hk
    rw [Serializer.deserialize, Serializer.deserialize, deserialize_nested, deserialize_nested,
      scrubKey_keys]
    split
    · rfl
    · exact deserializeLoop_scrub mapping k model kvs create hk

/-- C10 witness: with a malformed value at key `bad`, serializing a
concrete model fails, deserializing a document containing `bad` is never
a success, and deserializing a document omitting `bad` equals the
scrubbed schema's run, which concretely succeeds. -/
theorem invalid_schema_node_behavior_witness :
    (∃ e, Serializer.serialize
      [("a", .field ⟨"x", .integer, false, false, true⟩), ("bad", .invalid)]
      (.sub [("x", .int 1)]) = .error e) ∧
    Serializer.deserialize
      [("a", .field ⟨"x", .integer, false, false, true⟩), ("bad", .invalid)]
      (.sub [("x", .int 1)]) (.obj [("bad", .int 0)]) false ≠ .ok (.sub [("x", .int 1)]) ∧
    Serializer.deserialize
      [("a", .field ⟨"x", .integer, false, false, true⟩), ("bad", .invalid)]
      (.sub [("x", .int 1)]) (.obj [("a", .int 7)]) false = .ok (.sub [("x", .int 7)]) := by
  obtain ⟨hs, hd, hscrub⟩ := invalid_schema_node_behavior
  refine ⟨hs _ "bad" _ (by simp), hd _ "bad" _ _ _ (by simp) (by simp [lookupJ]) _, ?_⟩
  rw [hscrub _ "bad" _ _ _ (by simp)]
  simp [scrubKey, Serializer.deserialize, deserialize_nested, deserializeLoop, deserializeNode,
    lookupJ, Field.deserialize, Field.serialize, pyGetAttr, getA, model_to_json, json_to_model,
    jEq, jNum, pySetAttr, setA]

end Prismatic
